import Mathlib

/-!
Verification of the `EarlyAllocator` bump allocator
(`src/arceos/modules/bump_allocator/src/lib.rs`).

The allocator manages one contiguous address range with a forward byte
cursor (`b_pos`), a backward page cursor (`p_pos`) and one shared counter
(`sum`).  All fields are Rust `usize` values; arithmetic in the source is
release-mode wrapping arithmetic, which we embed as `Nat` arithmetic
modulo `WORD = 2 ^ 64` with explicit wrapping operators.
-/

/-- The number of values of a 64-bit machine word, `2 ^ 64`. -/
def WORD : Nat := 18446744073709551616

/-- Reduction of a natural number into the machine-word range. -/
def wrap (a : Nat) : Nat := a % WORD

/-- Wrapping addition of machine words. -/
def wadd (a b : Nat) : Nat := (a + b) % WORD

/-- Wrapping subtraction of machine words. -/
def wsub (a b : Nat) : Nat := (a % WORD + WORD - b % WORD) % WORD

/-- Wrapping multiplication of machine words. -/
def wmul (a b : Nat) : Nat := (a * b) % WORD

/-- Rust `usize::next_multiple_of`: the smallest value `>= n` that is a
multiple of `rhs` (the source calls it with `rhs = layout.align()`, a
power of two, hence nonzero). -/
def next_multiple_of (n rhs : Nat) : Nat :=
  if n % rhs = 0 then n else n + (rhs - n % rhs)

/-- The allocation error type; the source only ever produces
`AllocError::NoMemory`. -/
inductive AllocError where
  | NoMemory
deriving DecidableEq

/-- Rust `AllocResult<T> = Result<T, AllocError>`. -/
abbrev AllocResult (A : Type) : Type := Except AllocError A

/-- State of `EarlyAllocator<PAGE_SIZE>`: five `usize` fields.  The
const generic `PAGE_SIZE` is passed explicitly to the operations that
use it. -/
structure EarlyAllocator where
  b_pos : Nat
  p_pos : Nat
  start : Nat
  end_ : Nat
  sum : Nat
deriving DecidableEq

namespace EarlyAllocator

/-- `EarlyAllocator::new`: all fields zero. -/
def new : EarlyAllocator :=
  { b_pos := 0, p_pos := 0, start := 0, end_ := 0, sum := 0 }

/-- `BaseAllocator::init`: set both cursors and bounds from
`(start, size)` and reset the counter. -/
def init (_st : EarlyAllocator) (start size : Nat) : EarlyAllocator :=
  { b_pos := start, p_pos := wadd start size, start := start,
    end_ := wadd start size, sum := 0 }

/-- `BaseAllocator::add_memory` executes the Rust macro that aborts with
an unreachable-code error and never returns a normal value; the abort is
modelled as `none`, a normal return would be `some`. -/
def add_memory (_st : EarlyAllocator) (_start _size : Nat) :
    Option (AllocResult Unit × EarlyAllocator) :=
  none

/-- `ByteAllocator::alloc`: align the byte cursor up, commit the new
cursor unconditionally, and fail afterwards if it passed the page
cursor.  The layout is passed as its `size` and `align` components; the
returned address stands for the `NonNull<u8>` pointer. -/
def alloc (st : EarlyAllocator) (size align : Nat) :
    AllocResult Nat × EarlyAllocator :=
  let a := wrap (next_multiple_of st.b_pos align)
  let b := wadd a size
  let st1 : EarlyAllocator := { st with b_pos := b }
  if st.p_pos < b then (Except.error AllocError.NoMemory, st1)
  else (Except.ok a, st1)

/-- `ByteAllocator::dealloc`: ignore the pointer and layout, decrement
the shared counter (wrapping), and reset the byte cursor when it reaches
zero. -/
def dealloc (st : EarlyAllocator) (_pos _size _align : Nat) :
    EarlyAllocator :=
  let s := wsub st.sum 1
  if s = 0 then { st with sum := s, b_pos := st.start }
  else { st with sum := s }

/-- `ByteAllocator::total_bytes`. -/
def total_bytes (st : EarlyAllocator) : Nat := wsub st.p_pos st.b_pos

/-- `ByteAllocator::used_bytes`. -/
def used_bytes (st : EarlyAllocator) : Nat := wsub st.p_pos st.b_pos

/-- `ByteAllocator::available_bytes`. -/
def available_bytes (st : EarlyAllocator) : Nat := wsub st.p_pos st.b_pos

/-- The associated constant `PageAllocator::PAGE_SIZE` of the
implementation: literally `0`, whatever the const generic `ps` is. -/
def PAGE_SIZE (_ps : Nat) : Nat := 0

/-- `PageAllocator::alloc_pages` for const generic `ps`: when the shared
counter is zero, reserve a batch by moving the page cursor down by
`num_pages * ps` and set the counter to `num_pages`; then decrement the
counter (wrapping) and return the current page cursor.  The source
mutates sequentially (`p_pos -= ...; sum = num_pages` under the test,
then `sum -= 1` unconditionally, then returns `p_pos`); the two counter
updates of the reserve path compose to `wsub num_pages 1` here, and in
the other path only the decrement applies. -/
def alloc_pages (ps : Nat) (st : EarlyAllocator)
    (num_pages _align_pow2 : Nat) : AllocResult Nat × EarlyAllocator :=
  if st.sum = 0 then
    (Except.ok (wsub st.p_pos (wmul num_pages ps)),
     { st with p_pos := wsub st.p_pos (wmul num_pages ps),
               sum := wsub num_pages 1 })
  else
    (Except.ok st.p_pos, { st with sum := wsub st.sum 1 })

/-- `PageAllocator::dealloc_pages` for const generic `ps`: increment the
shared counter (wrapping), and move the page cursor up by
`num_pages * ps` when the counter is exactly zero afterwards. -/
def dealloc_pages (ps : Nat) (st : EarlyAllocator)
    (_pos num_pages : Nat) : EarlyAllocator :=
  let s := wadd st.sum 1
  if s = 0 then { st with sum := s, p_pos := wadd st.p_pos (wmul num_pages ps) }
  else { st with sum := s }

/-- `PageAllocator::total_pages`. -/
def total_pages (st : EarlyAllocator) : Nat := wsub st.p_pos st.b_pos

/-- `PageAllocator::used_pages`. -/
def used_pages (st : EarlyAllocator) : Nat := wsub st.p_pos st.b_pos

/-- `PageAllocator::available_pages`. -/
def available_pages (st : EarlyAllocator) : Nat := wsub st.p_pos st.b_pos

end EarlyAllocator

open EarlyAllocator

/-- A freshly initialised arena on the region `[4096, 4352)`, used as a
concrete instance for witnesses. -/
def arenaFresh : EarlyAllocator :=
  { b_pos := 4096, p_pos := 4352, start := 4096, end_ := 4352, sum := 0 }

/-- The arena on `[4096, 4352)` after its byte region is exhausted
(`b_pos = p_pos`), used as a concrete instance for witnesses and
counterexamples. -/
def arenaFull : EarlyAllocator :=
  { b_pos := 4352, p_pos := 4352, start := 4096, end_ := 4352, sum := 0 }

/- ### Helper lemmas about the wrapping operators -/

theorem wrap_of_lt {a : Nat} (h : a < WORD) : wrap a = a := by
  simp only [wrap, WORD] at *
  omega

theorem wadd_of_lt {a b : Nat} (h : a + b < WORD) : wadd a b = a + b := by
  simp only [wadd, WORD] at *
  omega

theorem wsub_of_le {a b : Nat} (hb : b ≤ a) (ha : a < WORD) :
    wsub a b = a - b := by
  simp only [wsub, WORD] at *
  omega

theorem le_next_multiple_of (n rhs : Nat) : n ≤ next_multiple_of n rhs := by
  unfold next_multiple_of
  split
  · exact Nat.le_refl n
  · exact Nat.le_add_right n _

theorem next_multiple_of_mod_eq_zero (n : Nat) {rhs : Nat} (h : 0 < rhs) :
    next_multiple_of n rhs % rhs = 0 := by
  unfold next_multiple_of
  split
  · assumption
  · have hr : n % rhs < rhs := Nat.mod_lt n h
    have h3 : n % rhs + (rhs - n % rhs) = rhs := by omega
    calc (n + (rhs - n % rhs)) % rhs
        = (rhs * (n / rhs) + (n % rhs + (rhs - n % rhs))) % rhs := by
          rw [← Nat.add_assoc, Nat.div_add_mod]
      _ = (rhs * (n / rhs) + rhs) % rhs := by rw [h3]
      _ = 0 := by rw [← Nat.mul_succ]; exact Nat.mul_mod_right rhs _

/- ### Claim theorems -/

/-- C1: a byte allocation `(size, align)` fails with `NoMemory` if and
only if the candidate new byte cursor — the smallest address `>= b_pos`
that is a multiple of `align`, plus `size` — exceeds the current page
cursor; otherwise it succeeds and returns the aligned address. -/
theorem alloc_oom_iff (st : EarlyAllocator) (size align : Nat)
    (hpow : ∃ k, align = 2 ^ k)
    (hov : next_multiple_of st.b_pos align + size < WORD) :
    ((alloc st size align).1 = Except.error AllocError.NoMemory ↔
      st.p_pos < next_multiple_of st.b_pos align + size) ∧
    (next_multiple_of st.b_pos align + size ≤ st.p_pos →
      (alloc st size align).1 =
        Except.ok (next_multiple_of st.b_pos align)) := by
  have h1 : wrap (next_multiple_of st.b_pos align) =
      next_multiple_of st.b_pos align := wrap_of_lt (by omega)
  have h2 : wadd (next_multiple_of st.b_pos align) size =
      next_multiple_of st.b_pos align + size := wadd_of_lt hov
  simp only [alloc, h1, h2]
  split
  next h =>
    exact ⟨⟨fun _ => h, fun _ => rfl⟩, fun hle => absurd h (by omega)⟩
  next h =>
    exact ⟨⟨fun hc => by simp at hc, fun hlt => absurd hlt h⟩, fun _ => rfl⟩

/-- Witness for C1 at a fresh arena on `[4096, 4352)` with a request of
16 bytes aligned to 8. -/
theorem alloc_oom_iff_inst :
    ((alloc arenaFresh 16 8).1 = Except.error AllocError.NoMemory ↔
      arenaFresh.p_pos < next_multiple_of arenaFresh.b_pos 8 + 16) ∧
    (next_multiple_of arenaFresh.b_pos 8 + 16 ≤ arenaFresh.p_pos →
      (alloc arenaFresh 16 8).1 =
        Except.ok (next_multiple_of arenaFresh.b_pos 8)) :=
  alloc_oom_iff arenaFresh 16 8 ⟨3, rfl⟩ (by decide)

/-- C2 counterexample: in the arena on `[4096, 4352)` whose byte region
is exhausted (`b_pos = p_pos = 4352`), a zero-sized allocation succeeds
and returns address 4352, which does not lie in `[start, p_pos) =
[4096, 4352)`. -/
theorem alloc_in_range_cex :
    (alloc arenaFull 0 1).1 = Except.ok 4352 ∧
    ¬ (4352 < arenaFull.p_pos) := by
  exact ⟨rfl, by decide⟩

/-- C2 amended: for a successful byte allocation of positive size, when
the candidate cursor computation does not overflow the machine word and
the arena satisfies `start ≤ b_pos`, the returned address is a multiple
of the requested alignment and lies in `[start, p_pos)`. -/
theorem alloc_in_range_pos_size (st : EarlyAllocator)
    (size align addr : Nat)
    (hpow : ∃ k, align = 2 ^ k)
    (hsb : st.start ≤ st.b_pos)
    (hsz : 0 < size)
    (hov : next_multiple_of st.b_pos align + size < WORD)
    (hok : (alloc st size align).1 = Except.ok addr) :
    addr % align = 0 ∧ st.start ≤ addr ∧ addr < st.p_pos := by
  obtain ⟨k, hk⟩ := hpow
  have hal : 0 < align := by subst hk; positivity
  have h1 : wrap (next_multiple_of st.b_pos align) =
      next_multiple_of st.b_pos align := wrap_of_lt (by omega)
  have h2 : wadd (next_multiple_of st.b_pos align) size =
      next_multiple_of st.b_pos align + size := wadd_of_lt hov
  simp only [alloc, h1, h2] at hok
  split at hok
  next h => simp at hok
  next h =>
    simp only [Except.ok.injEq] at hok
    refine ⟨?_, ?_, ?_⟩
    · rw [← hok]; exact next_multiple_of_mod_eq_zero _ hal
    · rw [← hok]; exact le_trans hsb (le_next_multiple_of _ _)
    · have hle := le_next_multiple_of st.b_pos align
      omega

/-- Witness for the amended C2 at a fresh arena on `[4096, 4352)` with a
request of 16 bytes aligned to 8, which returns address 4096. -/
theorem alloc_in_range_pos_size_inst :
    4096 % 8 = 0 ∧ arenaFresh.start ≤ 4096 ∧ 4096 < arenaFresh.p_pos :=
  alloc_in_range_pos_size arenaFresh 16 8 4096 ⟨3, rfl⟩ (by decide)
    (by decide) (by decide) (by rfl)

/-- C3: after `init (start, size)`, whatever the previous state was, the
byte cursor is `start`, the page cursor is `start + size` and the shared
counter is zero. -/
theorem init_resets_state (st : EarlyAllocator) (start size : Nat)
    (hov : start + size < WORD) :
    (init st start size).b_pos = start ∧
    (init st start size).p_pos = start + size ∧
    (init st start size).sum = 0 := by
  refine ⟨rfl, ?_, rfl⟩
  simp only [init]
  exact wadd_of_lt hov

/-- Witness for C3: initialising an already-used arena with
`(4096, 256)`. -/
theorem init_resets_state_inst :
    (init arenaFull 4096 256).b_pos = 4096 ∧
    (init arenaFull 4096 256).p_pos = 4096 + 256 ∧
    (init arenaFull 4096 256).sum = 0 :=
  init_resets_state arenaFull 4096 256 (by decide)

/-- C4: when a byte allocation fails with `NoMemory`, the byte cursor is
left at the attempted candidate value (aligned address plus size), not
rolled back to its pre-call value. -/
theorem alloc_fail_no_rollback (st : EarlyAllocator) (size align : Nat)
    (hov : next_multiple_of st.b_pos align + size < WORD)
    (_herr : (alloc st size align).1 = Except.error AllocError.NoMemory) :
    (alloc st size align).2.b_pos =
      next_multiple_of st.b_pos align + size ∧
    (st.b_pos ≠ next_multiple_of st.b_pos align + size →
      (alloc st size align).2.b_pos ≠ st.b_pos) := by
  have h1 : wrap (next_multiple_of st.b_pos align) =
      next_multiple_of st.b_pos align := wrap_of_lt (by omega)
  have h2 : wadd (next_multiple_of st.b_pos align) size =
      next_multiple_of st.b_pos align + size := wadd_of_lt hov
  have hb : (alloc st size align).2.b_pos =
      next_multiple_of st.b_pos align + size := by
    simp only [alloc, h1, h2]
    split <;> rfl
  exact ⟨hb, fun hne => by omega⟩

/-- Witness for C4 at the exhausted arena (`b_pos = p_pos = 4352`),
where a request of 16 bytes aligned to 8 fails and leaves the cursor at
4368. -/
theorem alloc_fail_no_rollback_inst :
    (alloc arenaFull 16 8).2.b_pos =
      next_multiple_of arenaFull.b_pos 8 + 16 ∧
    (arenaFull.b_pos ≠ next_multiple_of arenaFull.b_pos 8 + 16 →
      (alloc arenaFull 16 8).2.b_pos ≠ arenaFull.b_pos) :=
  alloc_fail_no_rollback arenaFull 16 8 (by decide) (by rfl)

/-- C5: starting with the shared counter at zero, two sequential calls
to `alloc_pages` with 4 pages return the same address, leave the counter
at 2, and move the page cursor only on the first call. -/
theorem alloc_pages_twice_same_addr (ps : Nat) (st : EarlyAllocator)
    (a1 a2 : Nat) (h0 : st.sum = 0) :
    (alloc_pages ps st 4 a1).1 =
      (alloc_pages ps (alloc_pages ps st 4 a1).2 4 a2).1 ∧
    (alloc_pages ps (alloc_pages ps st 4 a1).2 4 a2).2.sum = 2 ∧
    (alloc_pages ps st 4 a1).2.p_pos = wsub st.p_pos (wmul 4 ps) ∧
    (alloc_pages ps (alloc_pages ps st 4 a1).2 4 a2).2.p_pos =
      (alloc_pages ps st 4 a1).2.p_pos := by
  have e1 : wsub 4 1 = 3 := by decide
  have e2 : wsub 3 1 = 2 := by decide
  have h3 : (3 : Nat) ≠ 0 := by decide
  have hs2 : (alloc_pages ps st 4 a1).2 =
      { b_pos := st.b_pos, p_pos := wsub st.p_pos (wmul 4 ps),
        start := st.start, end_ := st.end_, sum := 3 } := by
    simp only [alloc_pages, h0, e1, ite_true]
  have hr1 : (alloc_pages ps st 4 a1).1 =
      Except.ok (wsub st.p_pos (wmul 4 ps)) := by
    simp only [alloc_pages, h0, ite_true]
  rw [hs2, hr1]
  refine ⟨?_, ?_, ?_, ?_⟩ <;> simp only [alloc_pages, h3, e2, ite_false]

/-- Witness for C5 on a fresh arena on `[4096, 4352)` with page size
4096. -/
theorem alloc_pages_twice_same_addr_inst :
    (alloc_pages 4096 arenaFresh 4 0).1 =
      (alloc_pages 4096 (alloc_pages 4096 arenaFresh 4 0).2 4 0).1 ∧
    (alloc_pages 4096 (alloc_pages 4096 arenaFresh 4 0).2 4 0).2.sum = 2 ∧
    (alloc_pages 4096 arenaFresh 4 0).2.p_pos =
      wsub arenaFresh.p_pos (wmul 4 4096) ∧
    (alloc_pages 4096 (alloc_pages 4096 arenaFresh 4 0).2 4 0).2.p_pos =
      (alloc_pages 4096 arenaFresh 4 0).2.p_pos :=
  alloc_pages_twice_same_addr 4096 arenaFresh 0 0 (by rfl)

/-- C6: as long as the shared counter is below the maximum representable
value, `dealloc_pages` leaves the page cursor unchanged and merely
increments the counter; the cursor can move only when the increment
wraps to exactly zero. -/
theorem dealloc_pages_frame (ps : Nat) (st : EarlyAllocator)
    (pos n : Nat) (hs : st.sum < WORD - 1) :
    (dealloc_pages ps st pos n).p_pos = st.p_pos ∧
    (dealloc_pages ps st pos n).sum = st.sum + 1 := by
  have h1 : wadd st.sum 1 = st.sum + 1 := wadd_of_lt (by omega)
  have h2 : ¬ (st.sum + 1 = 0) := by omega
  refine ⟨?_, ?_⟩ <;> simp only [dealloc_pages, h1, h2, ite_true, ite_false]

/-- Witness for C6 on a fresh arena on `[4096, 4352)` with page size
4096 and one released page. -/
theorem dealloc_pages_frame_inst :
    (dealloc_pages 4096 arenaFresh 4096 1).p_pos = arenaFresh.p_pos ∧
    (dealloc_pages 4096 arenaFresh 4096 1).sum = arenaFresh.sum + 1 :=
  dealloc_pages_frame 4096 arenaFresh 4096 1 (by decide)

/-- C7: `add_memory` never produces a normal result in any state and for
any arguments; it always aborts with the unreachable-code panic, which
the embedding records as `none`. -/
theorem add_memory_never_returns (st : EarlyAllocator)
    (start size : Nat) : add_memory st start size = none := rfl

/-- C8: in a state with `b_pos ≤ p_pos`, all six introspection queries
return the same value, the distance from the byte cursor to the page
cursor. -/
theorem introspection_all_equal (st : EarlyAllocator)
    (hb : st.b_pos ≤ st.p_pos) (hp : st.p_pos < WORD) :
    total_bytes st = st.p_pos - st.b_pos ∧
    used_bytes st = st.p_pos - st.b_pos ∧
    available_bytes st = st.p_pos - st.b_pos ∧
    total_pages st = st.p_pos - st.b_pos ∧
    used_pages st = st.p_pos - st.b_pos ∧
    available_pages st = st.p_pos - st.b_pos := by
  have h : wsub st.p_pos st.b_pos = st.p_pos - st.b_pos :=
    wsub_of_le hb hp
  exact ⟨h, h, h, h, h, h⟩

/-- Witness for C8 on a fresh arena on `[4096, 4352)`, where all six
queries return 256. -/
theorem introspection_all_equal_inst :
    total_bytes arenaFresh = arenaFresh.p_pos - arenaFresh.b_pos ∧
    used_bytes arenaFresh = arenaFresh.p_pos - arenaFresh.b_pos ∧
    available_bytes arenaFresh = arenaFresh.p_pos - arenaFresh.b_pos ∧
    total_pages arenaFresh = arenaFresh.p_pos - arenaFresh.b_pos ∧
    used_pages arenaFresh = arenaFresh.p_pos - arenaFresh.b_pos ∧
    available_pages arenaFresh = arenaFresh.p_pos - arenaFresh.b_pos :=
  introspection_all_equal arenaFresh (by decide) (by decide)

/-- C9: the public `PAGE_SIZE` associated constant is 0 for every choice
of the const generic parameter, even though `alloc_pages` moves the page
cursor by `num_pages` times that parameter. -/
theorem page_size_const_zero (ps : Nat) (st : EarlyAllocator)
    (n a : Nat) (h0 : st.sum = 0) :
    PAGE_SIZE ps = 0 ∧
    (alloc_pages ps st n a).2.p_pos = wsub st.p_pos (wmul n ps) := by
  refine ⟨rfl, ?_⟩
  simp only [alloc_pages, h0, ite_true]

/-- Witness for C9 with page size 4096 on a fresh arena on
`[4096, 4352)`. -/
theorem page_size_const_zero_inst :
    PAGE_SIZE 4096 = 0 ∧
    (alloc_pages 4096 arenaFresh 1 0).2.p_pos =
      wsub arenaFresh.p_pos (wmul 1 4096) :=
  page_size_const_zero 4096 arenaFresh 1 0 (by rfl)

/-- C10: with the shared counter at zero, allocating a batch of zero
pages succeeds and returns the unchanged page cursor, while the counter
wraps to the maximum machine-word value; afterwards no call with a
nonzero counter can move the page cursor. -/
theorem alloc_pages_zero_wraps (ps : Nat) (st : EarlyAllocator)
    (a : Nat) (h0 : st.sum = 0) (hp : st.p_pos < WORD) :
    (alloc_pages ps st 0 a).1 = Except.ok st.p_pos ∧
    (alloc_pages ps st 0 a).2.p_pos = st.p_pos ∧
    (alloc_pages ps st 0 a).2.sum = WORD - 1 ∧
    (∀ st2 n a2, st2.sum ≠ 0 →
      (alloc_pages ps st2 n a2).2.p_pos = st2.p_pos) := by
  have hm : wmul 0 ps = 0 := by
    simp only [wmul, Nat.zero_mul, Nat.zero_mod]
  have hz : wsub st.p_pos 0 = st.p_pos :=
    (wsub_of_le (Nat.zero_le _) hp).trans (Nat.sub_zero _)
  have hw : wsub 0 1 = WORD - 1 := by decide
  refine ⟨?_, ?_, ?_, fun st2 n a2 hne => ?_⟩
  · simp only [alloc_pages, h0, hm, hz, ite_true]
  · simp only [alloc_pages, h0, hm, hz, ite_true]
  · simp only [alloc_pages, h0, hw, ite_true]
  · obtain ⟨b, p, s, e, m⟩ := st2
    cases m with
    | zero => exact absurd rfl hne
    | succ k => rfl

/-- Witness for C10 with page size 4096 on a fresh arena on
`[4096, 4352)`. -/
theorem alloc_pages_zero_wraps_inst :
    (alloc_pages 4096 arenaFresh 0 0).1 = Except.ok arenaFresh.p_pos ∧
    (alloc_pages 4096 arenaFresh 0 0).2.p_pos = arenaFresh.p_pos ∧
    (alloc_pages 4096 arenaFresh 0 0).2.sum = WORD - 1 ∧
    (∀ st2 n a2, st2.sum ≠ 0 →
      (alloc_pages 4096 st2 n a2).2.p_pos = st2.p_pos) :=
  alloc_pages_zero_wraps 4096 arenaFresh 0 (by rfl) (by decide)
